import Mathlib

/-!
Verification of the contacts-management backend (FastAPI + SQLAlchemy service):
user registration / email verification, JWT authentication with role checks,
and per-user contact CRUD with substring search and an upcoming-birthday query.

The Python repository's repository-layer functions are embedded shallowly:
the database is a `List` of records, SQLAlchemy's `scalar_one_or_none` is the
`one_or_none` function below (zero rows → none, one row → some, more → raised
`MultipleResultsFound`, modelled as `Except.error`), and the external JWT and
bcrypt libraries are modelled by explicit data with the semantics documented
at their definitions.
-/

/-! ## Calendar arithmetic (Python `datetime` / Postgres `extract('doy', …)`) -/

/-- Gregorian leap-year test, as used by `datetime`/Postgres. -/
def isLeap (y : Int) : Bool :=
  y % 4 == 0 && (y % 100 != 0 || y % 400 == 0)

/-- Month lengths for a (non-)leap year, January first. -/
def monthLengths (leap : Bool) : List Nat :=
  [31, if leap then 29 else 28, 31, 30, 31, 30, 31, 31, 30, 31, 30, 31]

/-- A calendar date as stored in the `birthday` column. -/
structure Date where
  year : Int
  month : Nat
  day : Nat
deriving DecidableEq

/-- Day of year (`tm_yday` in Python, `extract('doy', …)` in Postgres):
January 1 is day 1. -/
def dayOfYear (d : Date) : Nat :=
  ((monthLengths (isLeap d.year)).take (d.month - 1)).sum + d.day

/-- Convert a day count relative to 1970-01-01 (the representation underlying
`datetime.today() + timedelta(days=n)`) to a civil date, using Euclidean
division so the conversion is exact for all integers. -/
def civilFromDays (z0 : Int) : Date :=
  let z := z0 + 719468
  let era := Int.ediv z 146097
  let doe := (Int.emod z 146097).toNat
  let yoe := (doe - doe / 1460 + doe / 36524 - doe / 146096) / 365
  let y : Int := (yoe : Int) + era * 400
  let doy := doe - (365 * yoe + yoe / 4 - yoe / 100)
  let mp := (5 * doy + 2) / 153
  let d := doy - (153 * mp + 2) / 5 + 1
  let m := if mp < 10 then mp + 3 else mp - 9
  { year := if m ≤ 2 then y + 1 else y, month := m, day := d }

/-- `tm_yday` of the date that lies `z` days after 1970-01-01. -/
def dayOfYearOfRD (z : Int) : Nat :=
  dayOfYear (civilFromDays z)

/-! ## Contacts data model

`src/contacts/models.py` is not part of the sources; the `Contact` record is
modelled from the spec's data-model section (id, owner_id, first_name,
last_name, email, phone_number, birthday, additional_info), matching every
attribute access in `src/contacts/repo.py`. -/

/-- A row of the `contacts` table. -/
structure Contact where
  id : Nat
  owner_id : Nat
  first_name : String
  last_name : String
  email : String
  phone_number : String
  birthday : Date
  additional_info : Option String
deriving DecidableEq

/-- `ContactsRepository.get_upcoming_birthdays` (src/contacts/repo.py).
`today` is the current date as a day count relative to 1970-01-01 and
`days` the query parameter; `today + days` is `today + timedelta(days=days)`.
The two branches mirror the Python `if today_day_of_year <= upcoming_day_of_year`
with `BETWEEN` (inclusive) in the first branch and the `or_` of the two
inclusive comparisons in the wrap-around branch. -/
def get_upcoming_birthdays (db : List Contact) (owner_id : Nat)
    (today days : Int) : List Contact :=
  let today_day_of_year := dayOfYearOfRD today
  let upcoming_day_of_year := dayOfYearOfRD (today + days)
  if today_day_of_year ≤ upcoming_day_of_year then
    db.filter (fun c => c.owner_id == owner_id &&
      (decide (today_day_of_year ≤ dayOfYear c.birthday) &&
       decide (dayOfYear c.birthday ≤ upcoming_day_of_year)))
  else
    db.filter (fun c => c.owner_id == owner_id &&
      (decide (dayOfYear c.birthday ≥ today_day_of_year) ||
       decide (dayOfYear c.birthday ≤ upcoming_day_of_year)))

/-- Sanity: day 0 is 1970-01-01. -/
theorem civilFromDays_epoch : civilFromDays 0 = ⟨1970, 1, 1⟩ := by decide

/-- Sanity: day 20085 is 2024-12-28 (day-of-year 363). -/
theorem civilFromDays_dec28 :
    civilFromDays 20085 = ⟨2024, 12, 28⟩ ∧ dayOfYearOfRD 20085 = 363 := by decide

/-- Sanity: 2024-12-28 plus 7 days is 2025-01-04 (day-of-year 4). -/
theorem civilFromDays_jan4 :
    civilFromDays (20085 + 7) = ⟨2025, 1, 4⟩ ∧ dayOfYearOfRD (20085 + 7) = 4 := by
  decide

/-- C1: For every owner and every days value, `get_upcoming_birthdays`
computes day-of-year for today and today+days; when doy(today) ≤
doy(today+days) it returns exactly the owner's contacts whose birthday
day-of-year lies in the inclusive interval, and when the window wraps the
year boundary exactly those whose birthday day-of-year is ≥ doy(today) or
≤ doy(today+days), both ends inclusive.  Membership depends on the birthday
only through its day-of-year (no comparison against the birthday's year). -/
theorem upcoming_birthdays_window_correct (db : List Contact) (owner_id : Nat)
    (today days : Int) (c : Contact) :
    c ∈ get_upcoming_birthdays db owner_id today days ↔
      c ∈ db ∧ c.owner_id = owner_id ∧
      (if dayOfYearOfRD today ≤ dayOfYearOfRD (today + days) then
        dayOfYearOfRD today ≤ dayOfYear c.birthday ∧
          dayOfYear c.birthday ≤ dayOfYearOfRD (today + days)
      else
        dayOfYear c.birthday ≥ dayOfYearOfRD today ∨
          dayOfYear c.birthday ≤ dayOfYearOfRD (today + days)) := by
  unfold get_upcoming_birthdays
  by_cases h : dayOfYearOfRD today ≤ dayOfYearOfRD (today + days) <;>
    simp [h, List.mem_filter, and_assoc]

/-- Sanity (spec's wrap-around example): with today = 2024-12-28 and a 7-day
window, a contact with birthday January 2 (of any year, here 1990) is
returned, while a June 1 birthday is not. -/
theorem upcoming_birthdays_wrap_example :
    get_upcoming_birthdays
      [⟨1, 5, "Ann", "Lee", "ann@x", "1", ⟨1990, 1, 2⟩, none⟩,
       ⟨2, 5, "Bob", "Kay", "bob@x", "2", ⟨1985, 6, 1⟩, none⟩]
      5 20085 7
      = [⟨1, 5, "Ann", "Lee", "ann@x", "1", ⟨1990, 1, 2⟩, none⟩] := by decide

/-! ## `scalar_one_or_none` -/

/-- SQLAlchemy `Result.scalar_one_or_none`: zero rows give `none`, one row
gives the row, more than one row raises `MultipleResultsFound` (modelled as
`Except.error ()`). -/
def one_or_none {α : Type} : List α → Except Unit (Option α)
  | [] => .ok none
  | [a] => .ok (some a)
  | _ => .error ()

deriving instance DecidableEq for Except

theorem one_or_none_ok_some {α : Type} {l : List α} {a : α}
    (h : one_or_none l = .ok (some a)) : l = [a] := by
  match l with
  | [] => simp [one_or_none] at h
  | [b] => simp [one_or_none] at h; simp [h]
  | _ :: _ :: _ => simp [one_or_none] at h

theorem one_or_none_ok_none {α : Type} {l : List α}
    (h : one_or_none l = .ok none) : l = [] := by
  match l with
  | [] => rfl
  | [b] => simp [one_or_none] at h
  | _ :: _ :: _ => simp [one_or_none] at h

/-! ## `ContactsRepository.find_contact` -/

/-- Digit-string accumulator used by `python_int`. -/
def parseDigitsAux (acc : Nat) : List Char → Option Nat
  | [] => some acc
  | c :: cs =>
      if c.isDigit then parseDigitsAux (acc * 10 + (c.toNat - 48)) cs else none

/-- Python's `int(s)` on a string: an optional sign followed by at least one
decimal digit parses to the integer, anything else raises `ValueError`
(modelled as `none`). -/
def python_int (s : String) : Option Int :=
  match s.toList with
  | [] => none
  | '-' :: [] => none
  | '-' :: c :: cs => (parseDigitsAux 0 (c :: cs)).map (fun n => -(n : Int))
  | '+' :: [] => none
  | '+' :: c :: cs => (parseDigitsAux 0 (c :: cs)).map (fun n => (n : Int))
  | cs => (parseDigitsAux 0 cs).map (fun n => (n : Int))

/-- The row predicate of the `find_contact` query: same owner, and the row's
id equals the integer parse of the identifier (no id matches when the parse
fails, as `id = NULL` matches no row), or the email, the first name, or the
concatenation first_name + " " + last_name equals the identifier verbatim.
`python_int` models Python's `int(identifier)` with the `ValueError`
branch giving `none`. -/
def find_contact_pred (owner_id : Nat) (identifier : String) (c : Contact) : Bool :=
  c.owner_id == owner_id &&
    ((match python_int identifier with
      | some n => (c.id : Int) == n
      | none => false) ||
     c.email == identifier ||
     c.first_name == identifier ||
     (c.first_name ++ " " ++ c.last_name) == identifier)

/-- `ContactsRepository.find_contact` (src/contacts/repo.py): runs the
disjunctive query and finishes with `scalar_one_or_none`. -/
def find_contact (db : List Contact) (owner_id : Nat) (identifier : String) :
    Except Unit (Option Contact) :=
  one_or_none (db.filter (find_contact_pred owner_id identifier))

/-- Demo contact: id 1, owner 1, name Ann Lee, email addressed at x. -/
def annContact : Contact := ⟨1, 1, "Ann", "Lee", "ann@x", "111", ⟨1990, 1, 1⟩, none⟩

/-- Demo contact whose first name collides with `annContact`'s email. -/
def collidingContact : Contact := ⟨2, 1, "ann@x", "Kay", "bob@x", "222", ⟨1991, 2, 2⟩, none⟩

/-- C2 counterexample: with two contacts of the same owner, one matching the
identifier by email and the other by first name, `find_contact` raises
`MultipleResultsFound` (the query returns two rows and `scalar_one_or_none`
raises); it does not return the first match. -/
theorem find_contact_no_first_match_wins :
    find_contact [annContact, collidingContact] 1 "ann@x" = .error () ∧
      find_contact [annContact, collidingContact] 1 "ann@x" ≠ .ok (some annContact) ∧
      find_contact_pred 1 "ann@x" annContact = true ∧
      find_contact_pred 1 "ann@x" collidingContact = true := by decide

/-- C2 amended: `find_contact` resolves the identifier against id (integer
parse), exact email, exact first name, or exact "first last", scoped to the
owner; with no matching contact it returns no result, with exactly one it
returns that contact, and with more than one distinct match it raises
(`MultipleResultsFound`) rather than choosing a first match. -/
theorem find_contact_resolution (db : List Contact) (owner_id : Nat)
    (identifier : String) :
    (db.countP (find_contact_pred owner_id identifier) = 0 →
      find_contact db owner_id identifier = .ok none) ∧
    (∀ c, c ∈ db → find_contact_pred owner_id identifier c = true →
      db.countP (find_contact_pred owner_id identifier) = 1 →
      find_contact db owner_id identifier = .ok (some c)) ∧
    (2 ≤ db.countP (find_contact_pred owner_id identifier) →
      find_contact db owner_id identifier = .error ()) := by
  have hc : db.countP (find_contact_pred owner_id identifier)
      = (db.filter (find_contact_pred owner_id identifier)).length :=
    List.countP_eq_length_filter _ _
  unfold find_contact
  refine ⟨?_, ?_, ?_⟩
  · intro h0
    rw [hc] at h0
    rw [List.length_eq_zero.mp h0]
    rfl
  · intro c hmem hpred h1
    rw [hc] at h1
    obtain ⟨a, ha⟩ := List.length_eq_one.mp h1
    have hcmem : c ∈ db.filter (find_contact_pred owner_id identifier) :=
      List.mem_filter.mpr ⟨hmem, hpred⟩
    rw [ha] at hcmem ⊢
    rw [List.mem_singleton.mp hcmem]
    rfl
  · intro h2
    rw [hc] at h2
    match hfil : db.filter (find_contact_pred owner_id identifier) with
    | [] => rw [hfil] at h2; simp at h2
    | [a] => rw [hfil] at h2; simp at h2
    | a :: b :: t => rfl

/-- C2 witness: a unique match (by first name) is returned. -/
theorem find_contact_resolution_witness :
    find_contact [annContact] 1 "Ann" = .ok (some annContact) :=
  (find_contact_resolution [annContact] 1 "Ann").2.1 annContact
    (by decide) (by decide) (by decide)

/-! ## `ContactsRepository.search_contacts` -/

/-- `leadsWith n h` holds when the character list `h` starts with `n`. -/
def leadsWith : List Char → List Char → Bool
  | [], _ => true
  | _ :: _, [] => false
  | a :: as, b :: bs => a == b && leadsWith as bs

/-- `hasSub n h` holds when `n` occurs as a contiguous run inside `h`. -/
def hasSub (n : List Char) : List Char → Bool
  | [] => n.isEmpty
  | c :: t => leadsWith n (c :: t) || hasSub n t

/-- `likeTail f s` holds when `f` holds of some suffix of `s`; this is how a
leading `%` in a LIKE pattern consumes an arbitrary (possibly empty) run. -/
def likeTail (f : List Char → Bool) : List Char → Bool
  | [] => f []
  | c :: t => f (c :: t) || likeTail f t

/-- SQL LIKE pattern matching: `%` matches any run of characters, `_` matches
exactly one character, any other pattern character matches itself.  Recursion
is structural on the pattern, with `likeTail` ranging over the suffixes of the
value for `%`. -/
def likeMatch : List Char → List Char → Bool
  | [], s => s.isEmpty
  | p :: ps, s =>
      if p = '%' then likeTail (likeMatch ps) s
      else
        match s with
        | [] => false
        | c :: t => (p == '_' || p == c) && likeMatch ps t

/-- SQL `column ILIKE '%query%'` as the source builds it — the query is
interpolated unescaped into the pattern, so `%` and `_` inside the query act
as SQL wildcards; case folding is `lower()` on both sides, modelled as ASCII
`Char.toLower`. -/
def ilike_contains (hay q : String) : Bool :=
  likeMatch ('%' :: (q.toList.map Char.toLower ++ ['%']))
    (hay.toList.map Char.toLower)

/-- `ContactsRepository.search_contacts` (src/contacts/repo.py): rows of the
owner whose first name, last name, or email matches `ILIKE '%query%'`. -/
def search_contacts (db : List Contact) (owner_id : Nat) (query : String) :
    List Contact :=
  db.filter (fun c => c.owner_id == owner_id &&
    (ilike_contains c.first_name query ||
     ilike_contains c.last_name query ||
     ilike_contains c.email query))

theorem leadsWith_iff (n h : List Char) :
    leadsWith n h = true ↔ ∃ t, h = n ++ t := by
  induction n generalizing h with
  | nil => simp [leadsWith]
  | cons a as ih =>
    cases h with
    | nil => simp [leadsWith]
    | cons b bs =>
      simp only [leadsWith, Bool.and_eq_true, beq_iff_eq, ih, List.cons_append,
        List.cons.injEq]
      constructor
      · rintro ⟨rfl, t, rfl⟩; exact ⟨t, rfl, rfl⟩
      · rintro ⟨t, rfl, rfl⟩; exact ⟨rfl, t, rfl⟩

theorem hasSub_iff (n h : List Char) :
    hasSub n h = true ↔ ∃ l r, h = l ++ n ++ r := by
  induction h with
  | nil =>
    simp only [hasSub, List.isEmpty_iff]
    constructor
    · rintro rfl; exact ⟨[], [], rfl⟩
    · rintro ⟨l, r, he⟩
      rcases List.append_eq_nil.mp (List.append_eq_nil.mp he.symm).1 with ⟨-, h2⟩
      exact h2
  | cons c t ih =>
    simp only [hasSub, Bool.or_eq_true, leadsWith_iff, ih]
    constructor
    · rintro (⟨r, hr⟩ | ⟨l, r, rfl⟩)
      · exact ⟨[], r, by simp [hr]⟩
      · exact ⟨c :: l, r, rfl⟩
    · rintro ⟨l, r, he⟩
      cases l with
      | nil => exact Or.inl ⟨r, by simpa using he⟩
      | cons x xs =>
        simp only [List.cons_append, List.cons.injEq] at he
        exact Or.inr ⟨xs, r, he.2⟩

/-- The query occurs in the value as a case-insensitive substring: a
decomposition of the lower-cased value around the lower-cased query. -/
def CaseInsensitiveSubstr (q value : String) : Prop :=
  ∃ l r, value.toList.map Char.toLower = l ++ q.toList.map Char.toLower ++ r

instance (q value : String) : Decidable (CaseInsensitiveSubstr q value) :=
  decidable_of_iff
    (hasSub (q.toList.map Char.toLower) (value.toList.map Char.toLower) = true)
    (hasSub_iff _ _)

theorem likeTail_iff (f : List Char → Bool) (s : List Char) :
    likeTail f s = true ↔ ∃ l r, s = l ++ r ∧ f r = true := by
  induction s with
  | nil =>
      simp only [likeTail]
      constructor
      · intro h; exact ⟨[], [], rfl, h⟩
      · rintro ⟨l, r, he, hf⟩
        obtain ⟨-, hr⟩ := List.append_eq_nil.mp he.symm
        rw [hr] at hf
        exact hf
  | cons c t ih =>
      simp only [likeTail, Bool.or_eq_true, ih]
      constructor
      · rintro (h | ⟨l, r, rfl, hf⟩)
        · exact ⟨[], c :: t, rfl, h⟩
        · exact ⟨c :: l, r, rfl, hf⟩
      · rintro ⟨l, r, he, hf⟩
        cases l with
        | nil =>
            rw [List.nil_append] at he
            rw [← he] at hf
            exact Or.inl hf
        | cons x xs =>
            simp only [List.cons_append, List.cons.injEq] at he
            exact Or.inr ⟨xs, r, he.2, hf⟩

theorem likeMatch_literal : ∀ lits : List Char, '%' ∉ lits → '_' ∉ lits →
    ∀ s, likeMatch lits s = true ↔ s = lits := by
  intro lits
  induction lits with
  | nil => intro _ _ s; simp [likeMatch, List.isEmpty_iff]
  | cons p ps ih =>
      intro hperc hund s
      have hp1 : p ≠ '%' := fun h => hperc (h ▸ List.mem_cons_self p ps)
      have hp2 : p ≠ '_' := fun h => hund (h ▸ List.mem_cons_self p ps)
      have hps1 : '%' ∉ ps := fun h => hperc (List.mem_cons_of_mem _ h)
      have hps2 : '_' ∉ ps := fun h => hund (List.mem_cons_of_mem _ h)
      simp only [likeMatch, if_neg hp1]
      cases s with
      | nil => simp
      | cons c t =>
          simp only [Bool.and_eq_true, Bool.or_eq_true, beq_iff_eq,
            ih hps1 hps2, List.cons.injEq]
          constructor
          · rintro ⟨hc | hc, ht⟩
            · exact absurd hc hp2
            · exact ⟨hc.symm, ht⟩
          · rintro ⟨hc, ht⟩
            exact ⟨Or.inr hc.symm, ht⟩

theorem likeMatch_literal_percent : ∀ lits : List Char, '%' ∉ lits →
    '_' ∉ lits → ∀ s, likeMatch (lits ++ ['%']) s = true ↔ ∃ suf, s = lits ++ suf := by
  intro lits
  induction lits with
  | nil =>
      intro _ _ s
      have hunfold : likeMatch ([] ++ ['%']) s = likeTail (likeMatch []) s := rfl
      rw [hunfold, likeTail_iff]
      constructor
      · intro h
        exact ⟨s, (List.nil_append s).symm⟩
      · intro h
        exact ⟨s, [], (List.append_nil s).symm, rfl⟩
  | cons p ps ih =>
      intro hperc hund s
      have hp1 : p ≠ '%' := fun h => hperc (h ▸ List.mem_cons_self p ps)
      have hp2 : p ≠ '_' := fun h => hund (h ▸ List.mem_cons_self p ps)
      have hps1 : '%' ∉ ps := fun h => hperc (List.mem_cons_of_mem _ h)
      have hps2 : '_' ∉ ps := fun h => hund (List.mem_cons_of_mem _ h)
      simp only [List.cons_append, likeMatch, if_neg hp1, List.append_eq]
      cases s with
      | nil => simp
      | cons c t =>
          simp only [Bool.and_eq_true, Bool.or_eq_true, beq_iff_eq,
            ih hps1 hps2, List.cons.injEq]
          constructor
          · rintro ⟨hc | hc, suf, ht⟩
            · exact absurd hc hp2
            · exact ⟨suf, hc.symm, ht⟩
          · rintro ⟨suf, hc, ht⟩
            exact ⟨Or.inr hc.symm, suf, ht⟩

/-- For a query free of SQL wildcards, `ILIKE '%query%'` is exactly
case-insensitive substring containment. -/
theorem ilike_contains_substr_iff (hay q : String)
    (hperc : '%' ∉ q.toList.map Char.toLower)
    (hund : '_' ∉ q.toList.map Char.toLower) :
    ilike_contains hay q = true ↔ CaseInsensitiveSubstr q hay := by
  have hunfold : ilike_contains hay q
      = likeTail (likeMatch (q.toList.map Char.toLower ++ ['%']))
          (hay.toList.map Char.toLower) := rfl
  rw [hunfold, likeTail_iff]
  unfold CaseInsensitiveSubstr
  constructor
  · rintro ⟨l, r, hhay, hf⟩
    rw [likeMatch_literal_percent _ hperc hund] at hf
    obtain ⟨suf, rfl⟩ := hf
    exact ⟨l, suf, by rw [hhay, List.append_assoc]⟩
  · rintro ⟨l, r, he⟩
    refine ⟨l, q.toList.map Char.toLower ++ r, by rw [he, List.append_assoc], ?_⟩
    rw [likeMatch_literal_percent _ hperc hund]
    exact ⟨r, rfl⟩

/-- Demo contact whose first name "John" is matched by the wildcard query. -/
def johnContact : Contact := ⟨1, 1, "John", "Smith", "john@x", "111", ⟨1990, 1, 1⟩, none⟩

/-- C8 counterexample: the source interpolates the query unescaped into
`ilike('%query%')`, so `%` in the query is a SQL wildcard: for the query
"J%n" the program returns the contact "John" although "J%n" is not a
case-insensitive substring of any of its fields — the claimed
for-every-query substring characterization is false at this input. -/
theorem search_wildcard_counterexample :
    search_contacts [johnContact] 1 "J%n" = [johnContact] ∧
      ¬ CaseInsensitiveSubstr "J%n" johnContact.first_name ∧
      ¬ CaseInsensitiveSubstr "J%n" johnContact.last_name ∧
      ¬ CaseInsensitiveSubstr "J%n" johnContact.email := by decide

/-- C8 amended: for every caller and query, `search_contacts` returns exactly
the contacts whose owner is the caller and whose first name, last name, or
email matches the SQL pattern `%query%` case-insensitively — the query being
interpolated unescaped, a `%` in it matches any run of characters and a `_`
exactly one character; a contact owned by a different user is never returned,
for any query; and for a query containing no `%` and no `_` the result is
exactly the contacts with the query as a case-insensitive substring of one of
the three fields. -/
theorem search_contacts_pattern_correct (db : List Contact) (owner_id : Nat)
    (query : String) :
    (∀ c, c ∈ search_contacts db owner_id query ↔
      c ∈ db ∧ c.owner_id = owner_id ∧
        (ilike_contains c.first_name query = true ∨
         ilike_contains c.last_name query = true ∨
         ilike_contains c.email query = true)) ∧
    (∀ c, c.owner_id ≠ owner_id → c ∉ search_contacts db owner_id query) ∧
    ('%' ∉ query.toList.map Char.toLower → '_' ∉ query.toList.map Char.toLower →
      ∀ c, c ∈ search_contacts db owner_id query ↔
        c ∈ db ∧ c.owner_id = owner_id ∧
          (CaseInsensitiveSubstr query c.first_name ∨
           CaseInsensitiveSubstr query c.last_name ∨
           CaseInsensitiveSubstr query c.email)) := by
  have hmem : ∀ c, c ∈ search_contacts db owner_id query ↔
      c ∈ db ∧ c.owner_id = owner_id ∧
        (ilike_contains c.first_name query = true ∨
         ilike_contains c.last_name query = true ∨
         ilike_contains c.email query = true) := by
    intro c
    unfold search_contacts
    simp [List.mem_filter, and_assoc, or_assoc]
  refine ⟨hmem, fun c hne hc => hne ((hmem c).mp hc).2.1, ?_⟩
  intro hperc hund c
  have hb : ∀ hay, ilike_contains hay query = true ↔ CaseInsensitiveSubstr query hay :=
    fun hay => ilike_contains_substr_iff hay query hperc hund
  rw [hmem c]
  simp only [hb]

/-- C8 witness: a wildcard-free query in the wrong case returns the owner's
matching contact through the substring characterization, and a contact of
another owner is excluded. -/
theorem search_contacts_pattern_correct_witness :
    annContact ∈ search_contacts [annContact] 1 "ANN" ∧
      annContact ∉ search_contacts [annContact] 2 "ANN" :=
  ⟨((search_contacts_pattern_correct [annContact] 1 "ANN").2.2 (by decide)
        (by decide) annContact).mpr
      ⟨by decide, by decide, Or.inl ⟨[], [], by decide⟩⟩,
    (search_contacts_pattern_correct [annContact] 2 "ANN").2.1 annContact
      (by decide)⟩

/-! ## Token service (src/auth/utils.py)

The `python-jose` library is external; it is modelled by explicit data: a
well-formed token on the wire is its claims (`sub`, `exp`, integer seconds)
together with the key it was signed with, and anything else is `malformed`.
`jose.jwt.decode` verifies the signature (key equality) and raises
`ExpiredSignatureError` exactly when `exp < now` (strict comparison, default
zero leeway); both failures surface as `JWTError`, modelled as
`Except.error`. -/

/-- The claims carried by the tokens this service issues. -/
structure JwtPayload where
  sub : Option String
  exp : Int
deriving DecidableEq

/-- A token string as received by the decode functions. -/
inductive TokenWire where
  | valid (payload : JwtPayload) (key : String)
  | malformed
deriving DecidableEq

/-- `jose.jwt.encode(claims, key, HS256)`. -/
def jwt_encode (payload : JwtPayload) (key : String) : TokenWire :=
  .valid payload key

/-- `jose.jwt.decode(token, key, [HS256])` at integer-second time `now`:
signature mismatch or malformed input raise `JWTError`; an `exp` strictly in
the past raises `ExpiredSignatureError` (a `JWTError`). -/
def jwt_decode (w : TokenWire) (key : String) (now : Int) :
    Except Unit JwtPayload :=
  match w with
  | .malformed => .error ()
  | .valid p k =>
      if k == key then
        if p.exp < now then .error () else .ok p
      else .error ()

def ACCESS_TOKEN_EXPIRE_MINUTES : Nat := 30

def REFRESH_TOKEN_EXPIRE_DAYS : Nat := 7

def VERIFICATION_TOKEN_HOUSE : Nat := 24

/-- `create_access_token(data, expires_delta)` with `data = {"sub": sub}`,
issued at time `now` (seconds): `exp` is `now + expires_delta` when a delta
is passed, else now + 30 minutes. -/
def create_access_token (sub : Option String) (expires_delta : Option Int)
    (now : Int) (key : String) : TokenWire :=
  let expire :=
    match expires_delta with
    | some d => now + d
    | none => now + 60 * ACCESS_TOKEN_EXPIRE_MINUTES
  jwt_encode ⟨sub, expire⟩ key

/-- `create_refresh_token`: as the access token but with a 7-day default. -/
def create_refresh_token (sub : Option String) (expires_delta : Option Int)
    (now : Int) (key : String) : TokenWire :=
  let expire :=
    match expires_delta with
    | some d => now + d
    | none => now + 86400 * REFRESH_TOKEN_EXPIRE_DAYS
  jwt_encode ⟨sub, expire⟩ key

/-- `create_verification_token(email)`: subject is the email, 24h lifetime. -/
def create_verification_token (email : String) (now : Int) (key : String) :
    TokenWire :=
  jwt_encode ⟨some email, now + 3600 * VERIFICATION_TOKEN_HOUSE⟩ key

/-- The `TokenData` schema (src/auth/schemas.py). -/
structure TokenData where
  username : String
deriving DecidableEq

/-- `decode_access_token` (src/auth/utils.py): decode, read the `sub` claim;
any `JWTError` and a missing subject give `None`. -/
def decode_access_token (w : TokenWire) (key : String) (now : Int) :
    Option TokenData :=
  match jwt_decode w key now with
  | .error _ => none
  | .ok p =>
      match p.sub with
      | none => none
      | some username => some ⟨username⟩

/-- `decode_verification_token` (src/auth/utils.py): decode and return the
`sub` claim, `None` on any `JWTError` or a missing subject. -/
def decode_verification_token (w : TokenWire) (key : String) (now : Int) :
    Option String :=
  match jwt_decode w key now with
  | .error _ => none
  | .ok p => p.sub

/-- C3: a token issued by `create_access_token` with subject S and a positive
remaining lifetime, decoded before its expiry with the same signing secret,
yields `TokenData` with username S (stated for an explicit delta and for the
30-minute default alike, via `expires_delta`). -/
theorem access_token_round_trip (S key : String) (expires_delta : Option Int)
    (now_issue now_decode : Int)
    (hpos : 0 < (match expires_delta with
                 | some d => d
                 | none => 60 * (ACCESS_TOKEN_EXPIRE_MINUTES : Int)))
    (hbefore : now_decode < now_issue +
        (match expires_delta with
         | some d => d
         | none => 60 * (ACCESS_TOKEN_EXPIRE_MINUTES : Int))) :
    decode_access_token (create_access_token (some S) expires_delta now_issue key)
      key now_decode = some ⟨S⟩ := by
  cases expires_delta with
  | none =>
      simp only [create_access_token, jwt_encode, decode_access_token, jwt_decode,
        beq_self_eq_true, if_true]
      rw [if_neg (by simp at hbefore ⊢; omega)]
  | some d =>
      simp only [create_access_token, jwt_encode, decode_access_token, jwt_decode,
        beq_self_eq_true, if_true]
      rw [if_neg (by simp at hbefore ⊢; omega)]

/-- C3 witness: round trip at concrete times. -/
theorem access_token_round_trip_witness :
    decode_access_token (create_access_token (some "alice") (some 600) 1000 "k")
      "k" 1500 = some ⟨"alice"⟩ :=
  access_token_round_trip "alice" "k" (some 600) 1000 1500 (by decide) (by decide)

/-- C4 counterexample: a token issued with a zero remaining lifetime and
decoded at the same (integer-second) instant decodes successfully — jose
raises `ExpiredSignatureError` only when `exp` is strictly less than the
decode time, and with a zero delta `exp` equals the issue time.  The claim
that a zero remaining lifetime at issuance yields `None` is therefore false
at this input. -/
theorem decode_zero_lifetime_same_second :
    decode_access_token (create_access_token (some "alice") (some 0) 1000 "k")
        "k" 1000 = some ⟨"alice"⟩ ∧
      decode_access_token (create_access_token (some "alice") (some 0) 1000 "k")
        "k" 1000 ≠ none := by decide

/-- C4 amended: `decode_access_token` and `decode_verification_token` never
raise (they are total, `Option`-valued): they return `None` on any signature
mismatch, malformed token, missing subject claim, or expiry — where a token
is expired exactly when its `exp` is strictly before the decode time, so for
a decode at or after issuance a negative remaining lifetime at issuance gives
`None`, and a zero remaining lifetime gives `None` whenever decoding happens
strictly after the issuance second (at the very same second it still
decodes) — and they return
a subject only for a validly signed token whose `exp` is at or after the
decode time. -/
theorem decode_fails_closed (key : String) (now_decode : Int) :
    (∀ w u, decode_access_token w key now_decode = some u ↔
      ∃ p, w = .valid p key ∧ ¬ p.exp < now_decode ∧ p.sub = some u.username) ∧
    (∀ w e, decode_verification_token w key now_decode = some e ↔
      ∃ p, w = .valid p key ∧ ¬ p.exp < now_decode ∧ p.sub = some e) ∧
    (decode_access_token .malformed key now_decode = none ∧
      decode_verification_token .malformed key now_decode = none) ∧
    (∀ p k, k ≠ key → decode_access_token (.valid p k) key now_decode = none ∧
      decode_verification_token (.valid p k) key now_decode = none) ∧
    (∀ e, decode_access_token (.valid ⟨none, e⟩ key) key now_decode = none ∧
      decode_verification_token (.valid ⟨none, e⟩ key) key now_decode = none) ∧
    (∀ sub delta now_issue, delta ≤ 0 → now_issue ≤ now_decode →
      (delta < 0 ∨ now_issue < now_decode) →
      decode_access_token (create_access_token sub (some delta) now_issue key)
          key now_decode = none ∧
        decode_verification_token
          (create_access_token sub (some delta) now_issue key)
          key now_decode = none) := by
  refine ⟨?_, ?_, ?_, ?_, ?_, ?_⟩
  · intro w u
    cases w with
    | malformed => simp [decode_access_token, jwt_decode]
    | valid p k =>
        by_cases hk : k = key
        · subst hk
          by_cases he : p.exp < now_decode
          · simp [decode_access_token, jwt_decode, he]
          · cases hs : p.sub with
            | none => simp [decode_access_token, jwt_decode, he, hs]
            | some s =>
                simp only [decode_access_token, jwt_decode, beq_self_eq_true,
                  if_true, if_neg he, hs, Option.some.injEq]
                constructor
                · rintro rfl; exact ⟨p, rfl, he, hs⟩
                · rintro ⟨q, hq, -, hqs⟩
                  cases hq
                  cases u
                  simp_all
        · simp [decode_access_token, jwt_decode, hk]
  · intro w e
    cases w with
    | malformed => simp [decode_verification_token, jwt_decode]
    | valid p k =>
        by_cases hk : k = key
        · subst hk
          by_cases he : p.exp < now_decode
          · simp [decode_verification_token, jwt_decode, he]
          · simp only [decode_verification_token, jwt_decode, beq_self_eq_true,
              if_true, if_neg he]
            constructor
            · intro hs; exact ⟨p, rfl, he, hs⟩
            · rintro ⟨q, hq, -, hqs⟩; cases hq; exact hqs
        · simp [decode_verification_token, jwt_decode, hk]
  · exact ⟨rfl, rfl⟩
  · intro p k hk
    constructor <;>
      simp [decode_access_token, decode_verification_token, jwt_decode,
        if_neg (by simpa using hk)]
  · intro e
    by_cases he : (e : Int) < now_decode <;>
      simp [decode_access_token, decode_verification_token, jwt_decode, he]
  · intro sub delta now_issue hd hle hstrict
    have hexp : now_issue + delta < now_decode := by omega
    constructor <;>
      simp [decode_access_token, decode_verification_token,
        create_access_token, jwt_encode, jwt_decode, hexp]

/-- C4 witness: a token issued with a negative remaining lifetime decodes to
`None`, by the expiry clause of `decode_fails_closed`. -/
theorem decode_fails_closed_witness :
    decode_access_token (create_access_token (some "bob") (some (-60)) 1000 "k")
      "k" 1000 = none :=
  ((decode_fails_closed "k" 1000).2.2.2.2.2 (some "bob") (-60) 1000
    (by decide) (by decide) (Or.inl (by decide))).1

/-! ## `ContactsRepository.update_contact` and the PUT route -/

/-- The `ContactsCreate` request schema (src/contacts/schemas.py is not in
the sources; fields modelled from the spec's data model and from the fields
the repository writes). -/
structure ContactsCreate where
  first_name : String
  last_name : String
  email : String
  phone_number : String
  birthday : Date
  additional_info : Option String
deriving DecidableEq

/-- The errors `update_contact` can raise: `MultipleResultsFound` escaping
from `scalar_one_or_none`, or the explicit `ValueError("Email already in
use")`. -/
inductive RepoErr where
  | multipleResults
  | valueError
deriving DecidableEq

/-- `.values(contact_update.model_dump(exclude_unset=True))` applied to a row
(with the full payload set, as the PUT body carries every field). -/
def apply_update (upd : ContactsCreate) (c : Contact) : Contact :=
  { c with
      first_name := upd.first_name
      last_name := upd.last_name
      email := upd.email
      phone_number := upd.phone_number
      birthday := upd.birthday
      additional_info := upd.additional_info }

/-- `ContactsRepository.update_contact` (src/contacts/repo.py): resolve the
identifier with `find_contact`; on no contact return `None`; when the update
carries a truthy (non-empty) email, look up that email over the whole table
and raise `ValueError` if it belongs to a different contact; otherwise write
the update and return the updated row together with the new table state. -/
def update_contact (db : List Contact) (identifier : String) (owner_id : Nat)
    (contact_update : ContactsCreate) :
    Except RepoErr (List Contact × Option Contact) :=
  match find_contact db owner_id identifier with
  | .error _ => .error .multipleResults
  | .ok none => .ok (db, none)
  | .ok (some contact) =>
      let dup : Except RepoErr Unit :=
        if contact_update.email ≠ "" then
          match one_or_none (db.filter (fun c => c.email == contact_update.email)) with
          | .error _ => .error .multipleResults
          | .ok (some existing) =>
              if existing.id ≠ contact.id then .error .valueError else .ok ()
          | .ok none => .ok ()
        else .ok ()
      match dup with
      | .error e => .error e
      | .ok () =>
          let db2 := db.map (fun c =>
            if c.id == contact.id then apply_update contact_update c else c)
          .ok (db2, some (apply_update contact_update contact))

/-- The PUT /contacts/{identifier} handler (src/contacts/routers.py): 200
with the updated row, 404 when `update_contact` returns `None`, and — since
the handler catches nothing — an escaped exception surfaces as the
framework's 500 internal server error.  Returns the status code and the
table state afterwards. -/
def update_contact_route (db : List Contact) (identifier : String)
    (owner_id : Nat) (contact_update : ContactsCreate) : Nat × List Contact :=
  match update_contact db identifier owner_id contact_update with
  | .ok (db2, some _) => (200, db2)
  | .ok (_, none) => (404, db)
  | .error _ => (500, db)

/-- Second demo contact of owner 1 with its own email. -/
def bobContact : Contact := ⟨2, 1, "Bob", "Kay", "bob@x", "222", ⟨1991, 2, 2⟩, none⟩

/-- Update payload that reuses `bobContact`'s email for contact 1. -/
def dupEmailUpdate : ContactsCreate := ⟨"Ann", "Lee", "bob@x", "111", ⟨1990, 1, 1⟩, none⟩

/-- C9 counterexample: a PUT whose payload carries an email already belonging
to a different contact answers 500 (the repository's `ValueError` escapes the
handler uncaught), not the claimed 409; the table is left unchanged. -/
theorem update_duplicate_email_not_409 :
    update_contact_route [annContact, bobContact] "1" 1 dupEmailUpdate
        = (500, [annContact, bobContact]) ∧
      (update_contact_route [annContact, bobContact] "1" 1 dupEmailUpdate).1 ≠ 409 ∧
      update_contact [annContact, bobContact] "1" 1 dupEmailUpdate
        = .error .valueError := by decide

/-- C9 amended: for every PUT whose update payload carries a (non-empty)
email already belonging to a different contact, the repository raises
(`ValueError`, or `MultipleResultsFound` when several rows hold that email),
the uncaught exception surfaces as a 500 internal server error rather than a
409 conflict, and the targeted contact — the whole table — is left
unchanged. -/
theorem update_duplicate_email_rejected (db : List Contact) (identifier : String)
    (owner_id : Nat) (contact_update : ContactsCreate) (c other : Contact)
    (hfind : find_contact db owner_id identifier = .ok (some c))
    (hne : contact_update.email ≠ "")
    (hmem : other ∈ db) (hoe : other.email = contact_update.email)
    (hid : other.id ≠ c.id) :
    (∃ e, update_contact db identifier owner_id contact_update = .error e) ∧
      update_contact_route db identifier owner_id contact_update = (500, db) := by
  have hofil : other ∈ db.filter (fun x => x.email == contact_update.email) :=
    List.mem_filter.mpr ⟨hmem, by simpa using hoe⟩
  have herr : ∃ e, update_contact db identifier owner_id contact_update
      = .error e := by
    unfold update_contact
    rw [hfind]
    simp only [if_pos hne]
    cases hfil : db.filter (fun x => x.email == contact_update.email) with
    | nil => rw [hfil] at hofil; simp at hofil
    | cons a t =>
        cases t with
        | nil =>
            rw [hfil] at hofil
            have ha : other = a := by simpa using hofil
            subst ha
            exact ⟨.valueError, by simp [one_or_none, hid]⟩
        | cons b t2 => exact ⟨.multipleResults, by simp [one_or_none]⟩
  refine ⟨herr, ?_⟩
  obtain ⟨e, he⟩ := herr
  unfold update_contact_route
  rw [he]

/-- C9 witness: the amended behaviour at the concrete duplicate-email PUT. -/
theorem update_duplicate_email_rejected_witness :
    update_contact_route [annContact, bobContact] "1" 1 dupEmailUpdate
      = (500, [annContact, bobContact]) :=
  (update_duplicate_email_rejected [annContact, bobContact] "1" 1 dupEmailUpdate
    annContact bobContact (by decide) (by decide) (by decide) (by decide)
    (by decide)).2

/-! ## Users, roles, and the auth endpoints (src/auth)

`src/auth/models.py` is not part of the sources; `User` and `Role` are
modelled from the spec's data model, matching every attribute the auth
repository and routers access.  The `passlib` bcrypt context is external and
is modelled as a deterministic injective encoding: `verify_password p h`
holds exactly when `h` is the hash of `p`. -/

/-- A row of the `roles` table. -/
structure Role where
  id : Nat
  name : String
deriving DecidableEq

/-- A row of the `users` table. -/
structure User where
  id : Nat
  username : String
  email : String
  hashed_password : String
  is_active : Bool
  avatar : Option String
  role_id : Nat
deriving DecidableEq

/-- The `RoleEnum` schema (src/auth/schemas.py). -/
inductive RoleEnum where
  | USER
  | ADMIN
deriving DecidableEq

/-- `RoleEnum.value`. -/
def RoleEnum.value : RoleEnum → String
  | .USER => "user"
  | .ADMIN => "admin"

/-- The `UserCreate` schema (src/auth/schemas.py). -/
structure UserCreate where
  username : String
  email : String
  password : String
  role : RoleEnum
deriving DecidableEq

/-- `get_password_hash` (src/auth/pass_utils.py): the bcrypt hash, modelled
as a deterministic tagged encoding of the password. -/
def get_password_hash (password : String) : String :=
  "$2b$" ++ password

/-- `verify_password` (src/auth/pass_utils.py): bcrypt verification, true
exactly when the stored hash is the hash of the candidate password. -/
def verify_password (password hashed_password : String) : Bool :=
  hashed_password == get_password_hash password

/-- The relational store the auth endpoints act on, plus the id sequence. -/
structure AuthState where
  users : List User
  roles : List Role
  next_id : Nat
deriving DecidableEq

/-- `UserRepository.get_user_by_email` (src/auth/repo.py): select by email,
`scalar_one_or_none`. -/
def get_user_by_email (users : List User) (email : String) :
    Except Unit (Option User) :=
  one_or_none (users.filter (fun u => u.email == email))

/-- `RoleRepository.get_role_by_name` (src/auth/repo.py): select by the
enum's value, `scalar_one_or_none` (the `lru_cache` only memoizes the same
result). -/
def get_role_by_name (roles : List Role) (name : RoleEnum) :
    Except Unit (Option Role) :=
  one_or_none (roles.filter (fun r => r.name == name.value))

/-- `UserRepository.create_user` (src/auth/repo.py): hash the password, look
up the role, insert the user with `is_active=False`; a missing role makes
`user_role.id` raise (`AttributeError` on `None`), modelled as
`Except.error`. -/
def create_user (st : AuthState) (user_create : UserCreate) :
    Except Unit (AuthState × User) :=
  match get_role_by_name st.roles user_create.role with
  | .error _ => .error ()
  | .ok none => .error ()
  | .ok (some user_role) =>
      let new_user : User :=
        { id := st.next_id
          username := user_create.username
          email := user_create.email
          hashed_password := get_password_hash user_create.password
          is_active := false
          avatar := none
          role_id := user_role.id }
      .ok ({ st with users := st.users ++ [new_user], next_id := st.next_id + 1 },
        new_user)

/-- POST /auth/register (src/auth/routers.py): 409 and no change when a user
with the email exists, else create the user and answer 201 with it (the
verification email is a side task with no store effect).  The result carries
the new state, the HTTP status, and the created user. -/
def register (st : AuthState) (user_create : UserCreate) :
    Except Unit (AuthState × Nat × Option User) :=
  match get_user_by_email st.users user_create.email with
  | .error _ => .error ()
  | .ok (some _) => .ok (st, 409, none)
  | .ok none =>
      match create_user st user_create with
      | .error _ => .error ()
      | .ok (st2, user) => .ok (st2, 201, some user)

/-- C5: POST /auth/register answers 409, leaving the store unchanged (no
second user is created), exactly when a user with the requested email exists;
when none exists it creates the user (inactive, hashed password) and answers
201 with it.  The store is assumed to hold at most one user per email and the
seeded role row for the requested role, as registration itself maintains. -/
theorem register_conflict_iff (st : AuthState) (user_create : UserCreate)
    (hemail : (st.users.filter (fun u => u.email == user_create.email)).length ≤ 1)
    (hrole : (st.roles.filter (fun r => r.name == user_create.role.value)).length = 1) :
    ((∃ u, u ∈ st.users ∧ u.email = user_create.email) →
      register st user_create = .ok (st, 409, none)) ∧
    ((¬ ∃ u, u ∈ st.users ∧ u.email = user_create.email) →
      ∃ new_user,
        register st user_create
            = .ok ({ st with users := st.users ++ [new_user],
                             next_id := st.next_id + 1 }, 201, some new_user) ∧
          new_user.email = user_create.email ∧
          new_user.is_active = false ∧
          new_user.hashed_password = get_password_hash user_create.password) := by
  constructor
  · rintro ⟨u, hu, hue⟩
    have hufil : u ∈ st.users.filter (fun v => v.email == user_create.email) :=
      List.mem_filter.mpr ⟨hu, by simpa using hue⟩
    unfold register get_user_by_email
    cases hfil : st.users.filter (fun v => v.email == user_create.email) with
    | nil => rw [hfil] at hufil; simp at hufil
    | cons a t =>
        cases t with
        | nil => simp [one_or_none]
        | cons b t2 => rw [hfil] at hemail; simp at hemail
  · intro hnone
    have hfil : st.users.filter (fun v => v.email == user_create.email) = [] := by
      rw [List.filter_eq_nil_iff]
      intro u hu hue
      exact hnone ⟨u, hu, by simpa using hue⟩
    obtain ⟨r, hr⟩ := List.length_eq_one.mp hrole
    unfold register get_user_by_email create_user get_role_by_name
    rw [hfil, hr]
    exact ⟨_, rfl, rfl, rfl, rfl⟩

/-- C5 witness: registering into an empty store (one seeded role) creates an
inactive user and answers 201; the duplicate branch is exercised on the
resulting store. -/
theorem register_conflict_iff_witness :
    (∃ new_user,
      register ⟨[], [⟨1, "user"⟩], 1⟩ ⟨"ann", "ann@x", "pw", .USER⟩
          = .ok ({ users := [new_user], roles := [⟨1, "user"⟩], next_id := 2 },
              201, some new_user) ∧
        new_user.email = "ann@x" ∧ new_user.is_active = false ∧
        new_user.hashed_password = get_password_hash "pw") :=
  (register_conflict_iff ⟨[], [⟨1, "user"⟩], 1⟩ ⟨"ann", "ann@x", "pw", .USER⟩
    (by decide) (by decide)).2 (by decide)

/-! ## `RoleChecker` (src/auth/utils.py) -/

/-- The authenticated user as the role checker sees it: the user row joined
with its role row (`user.role.name`). -/
structure UserWithRole where
  user : User
  role : Role
deriving DecidableEq

/-- `RoleChecker.__call__` on an authenticated user: 403 when the user's role
name is not among the allowed roles' values, else the user. -/
def role_checker (allowed_roles : List RoleEnum) (u : UserWithRole) :
    Except Nat UserWithRole :=
  if (allowed_roles.map RoleEnum.value).contains u.role.name then .ok u
  else .error 403

/-- C7: `RoleChecker` returns the user exactly when the user's role name is
in the allow-list and raises 403 exactly when it is not; in particular a
non-admin user calling an admin-only endpoint (the all-contacts and delete
routes use allow-list `[ADMIN]`) receives 403. -/
theorem role_checker_permits_iff (allowed_roles : List RoleEnum)
    (u : UserWithRole) :
    (role_checker allowed_roles u = .ok u ↔
      u.role.name ∈ allowed_roles.map RoleEnum.value) ∧
    (role_checker allowed_roles u = .error 403 ↔
      u.role.name ∉ allowed_roles.map RoleEnum.value) ∧
    (u.role.name ≠ "admin" → role_checker [RoleEnum.ADMIN] u = .error 403) := by
  refine ⟨?_, ?_, ?_⟩
  · unfold role_checker
    by_cases h : u.role.name ∈ allowed_roles.map RoleEnum.value <;>
      simp [List.contains_iff_exists_mem_beq, h]
  · unfold role_checker
    by_cases h : u.role.name ∈ allowed_roles.map RoleEnum.value <;>
      simp [List.contains_iff_exists_mem_beq, h]
  · intro hna
    unfold role_checker
    simp [List.contains_iff_exists_mem_beq, RoleEnum.value, hna]

/-- C7 witness: a user whose role is "user" gets 403 on the admin-only
allow-list. -/
theorem role_checker_permits_iff_witness :
    role_checker [RoleEnum.ADMIN]
        ⟨⟨1, "ann", "ann@x", "h", true, none, 1⟩, ⟨1, "user"⟩⟩ = .error 403 :=
  (role_checker_permits_iff [RoleEnum.ADMIN]
    ⟨⟨1, "ann", "ann@x", "h", true, none, 1⟩, ⟨1, "user"⟩⟩).2.2 (by decide)

/-! ## Email verification and login -/

/-- `UserRepository.activate_user` (src/auth/repo.py): set `is_active = True`
on the given row and commit. -/
def activate_user (users : List User) (target : User) : List User :=
  users.map (fun v => if v.id == target.id then { v with is_active := true } else v)

/-- GET /auth/verify-email (src/auth/routers.py): decode the verification
token; look the subject email up (a `None` subject finds no user, as
`email = NULL` matches no row); 404 when no user is found, else activate and
answer 200. -/
def verify_email (st : AuthState) (w : TokenWire) (key : String) (now : Int) :
    Except Unit (AuthState × Nat) :=
  match decode_verification_token w key now with
  | none => .ok (st, 404)
  | some email =>
      match get_user_by_email st.users email with
      | .error _ => .error ()
      | .ok none => .ok (st, 404)
      | .ok (some user) =>
          .ok ({ st with users := activate_user st.users user }, 200)

/-- POST /auth/token (src/auth/routers.py): look the form's username up as an
email; 401 when no user is found or the password does not verify against the
stored hash; else 201 with access and refresh tokens whose subject is the
user's email.  No field other than email and hashed_password is consulted. -/
def login_for_token (st : AuthState) (username password : String) (now : Int)
    (key : String) : Except Unit (Nat × Option (TokenWire × TokenWire)) :=
  match get_user_by_email st.users username with
  | .error _ => .error ()
  | .ok none => .ok (401, none)
  | .ok (some user) =>
      if verify_password password user.hashed_password then
        .ok (201, some (create_access_token (some user.email) none now key,
          create_refresh_token (some user.email) none now key))
      else .ok (401, none)

/-- PATCH /auth/avatar (src/auth/routers.py, via
`UserRepository.update_avatar`): set the user's avatar URL; 404 when the
email is unknown. -/
def update_avatar (st : AuthState) (email url : String) :
    Except Unit (AuthState × Nat) :=
  match get_user_by_email st.users email with
  | .error _ => .error ()
  | .ok none => .ok (st, 404)
  | .ok (some user) =>
      .ok ({ st with users := st.users.map (fun v =>
        if v.id == user.id then { v with avatar := some url } else v) }, 200)

/-- The operations of the system that can touch the users table (the contact
endpoints never write to it). -/
inductive AuthOp where
  | opRegister (user_create : UserCreate)
  | opVerifyEmail (w : TokenWire) (key : String) (now : Int)
  | opLogin (username password : String) (now : Int) (key : String)
  | opUpdateAvatar (email url : String)

/-- The users-table state after an operation; a raised exception rolls
nothing forward (the failing statement is reached before any write). -/
def applyAuthOp (st : AuthState) : AuthOp → AuthState
  | .opRegister user_create =>
      match register st user_create with
      | .ok (st2, _, _) => st2
      | .error _ => st
  | .opVerifyEmail w key now =>
      match verify_email st w key now with
      | .ok (st2, _) => st2
      | .error _ => st
  | .opLogin _ _ _ _ => st
  | .opUpdateAvatar email url =>
      match update_avatar st email url with
      | .ok (st2, _) => st2
      | .error _ => st

theorem get_user_by_email_ok_some {users : List User} {email : String} {u : User}
    (h : get_user_by_email users email = .ok (some u)) :
    u ∈ users ∧ u.email = email := by
  have hfil := one_or_none_ok_some h
  have hmem : u ∈ users.filter (fun v => v.email == email) := by
    rw [hfil]; exact List.mem_singleton.mpr rfl
  have := List.mem_filter.mp hmem
  exact ⟨this.1, by simpa using this.2⟩

/-- C6: every user created by registration has `is_active = False`, and
`is_active` becomes `True` only through the email-verification path: when a
user is active after an operation but no user with its id was active before,
the operation is a `verify-email` whose token decoded to that user's email
and that email named an existing user.  States are assumed to have distinct
user ids (the primary key). -/
theorem is_active_only_via_verification :
    (∀ st user_create st2 code u,
      register st user_create = .ok (st2, code, some u) → u.is_active = false) ∧
    (∀ st op, (st.users.map User.id).Nodup →
      ∀ u2, u2 ∈ (applyAuthOp st op).users → u2.is_active = true →
      (∃ u, u ∈ st.users ∧ u.id = u2.id ∧ u.is_active = true) ∨
      (∃ w key now, op = .opVerifyEmail w key now ∧
        decode_verification_token w key now = some u2.email ∧
        ∃ u, u ∈ st.users ∧ u.email = u2.email)) := by
  have hreg : ∀ st user_create st2 code u,
      register st user_create = .ok (st2, code, some u) →
      u.is_active = false ∧
        st2.users = st.users ++ [u] := by
    intro st user_create st2 code u h
    unfold register at h
    cases hg : get_user_by_email st.users user_create.email with
    | error e => rw [hg] at h; simp at h
    | ok o =>
        cases o with
        | some v => rw [hg] at h; simp at h
        | none =>
            rw [hg] at h
            unfold create_user at h
            cases hr : get_role_by_name st.roles user_create.role with
            | error e => rw [hr] at h; simp at h
            | ok ro =>
                cases ro with
                | none => rw [hr] at h; simp at h
                | some r =>
                    rw [hr] at h
                    simp only [Except.ok.injEq, Prod.mk.injEq,
                      Option.some.injEq] at h
                    obtain ⟨hst, -, hu⟩ := h
                    subst hu
                    rw [← hst]
                    exact ⟨rfl, rfl⟩
  refine ⟨fun st uc st2 code u h => (hreg st uc st2 code u h).1, ?_⟩
  intro st op hnodup u2 hmem hact
  cases op with
  | opLogin username password now key =>
      exact Or.inl ⟨u2, hmem, rfl, hact⟩
  | opRegister user_create =>
      simp only [applyAuthOp] at hmem
      cases hr : register st user_create with
      | error e => rw [hr] at hmem; exact Or.inl ⟨u2, hmem, rfl, hact⟩
      | ok out =>
          obtain ⟨st2, code, uopt⟩ := out
          rw [hr] at hmem
          cases uopt with
          | none =>
              have hst : st2 = st := by
                unfold register at hr
                cases hg : get_user_by_email st.users user_create.email with
                | error e => rw [hg] at hr; simp at hr
                | ok o =>
                    cases o with
                    | some v =>
                        rw [hg] at hr
                        simp only [Except.ok.injEq, Prod.mk.injEq] at hr
                        exact hr.1.symm
                    | none =>
                        rw [hg] at hr
                        unfold create_user at hr
                        cases hrr : get_role_by_name st.roles user_create.role with
                        | error e => rw [hrr] at hr; simp at hr
                        | ok ro =>
                            cases ro with
                            | none => rw [hrr] at hr; simp at hr
                            | some r => rw [hrr] at hr; simp at hr
              rw [hst] at hmem
              exact Or.inl ⟨u2, hmem, rfl, hact⟩
          | some u =>
              obtain ⟨hau, hst2⟩ := hreg st user_create st2 code u hr
              rw [hst2] at hmem
              rcases List.mem_append.mp hmem with hm | hm
              · exact Or.inl ⟨u2, hm, rfl, hact⟩
              · exfalso
                rw [List.mem_singleton.mp hm] at hact
                rw [hau] at hact
                exact Bool.false_ne_true hact
  | opUpdateAvatar email url =>
      simp only [applyAuthOp] at hmem
      cases hu : update_avatar st email url with
      | error e => rw [hu] at hmem; exact Or.inl ⟨u2, hmem, rfl, hact⟩
      | ok out =>
          obtain ⟨st2, code⟩ := out
          rw [hu] at hmem
          unfold update_avatar at hu
          cases hg : get_user_by_email st.users email with
          | error e => rw [hg] at hu; simp at hu
          | ok o =>
              cases o with
              | none =>
                  rw [hg] at hu
                  simp only [Except.ok.injEq, Prod.mk.injEq] at hu
                  rw [← hu.1] at hmem
                  exact Or.inl ⟨u2, hmem, rfl, hact⟩
              | some user =>
                  rw [hg] at hu
                  simp only [Except.ok.injEq, Prod.mk.injEq] at hu
                  rw [← hu.1] at hmem
                  simp only [List.mem_map] at hmem
                  obtain ⟨v, hv, hfv⟩ := hmem
                  cases hvi : v.id == user.id <;> rw [hvi] at hfv
                  · rw [if_neg Bool.false_ne_true] at hfv
                    rw [← hfv] at hact
                    exact Or.inl ⟨v, hv, by rw [← hfv], hact⟩
                  · rw [if_pos rfl] at hfv
                    rw [← hfv] at hact
                    exact Or.inl ⟨v, hv, by rw [← hfv], hact⟩
  | opVerifyEmail w key now =>
      simp only [applyAuthOp] at hmem
      cases hv : verify_email st w key now with
      | error e => rw [hv] at hmem; exact Or.inl ⟨u2, hmem, rfl, hact⟩
      | ok out =>
          obtain ⟨st2, code⟩ := out
          rw [hv] at hmem
          unfold verify_email at hv
          cases hd : decode_verification_token w key now with
          | none =>
              rw [hd] at hv
              simp only [Except.ok.injEq, Prod.mk.injEq] at hv
              rw [← hv.1] at hmem
              exact Or.inl ⟨u2, hmem, rfl, hact⟩
          | some email =>
              rw [hd] at hv
              cases hg : get_user_by_email st.users email with
              | error e => simp only [hg] at hv; exact absurd hv (by simp)
              | ok o =>
                  cases o with
                  | none =>
                      simp only [hg, Except.ok.injEq, Prod.mk.injEq] at hv
                      rw [← hv.1] at hmem
                      exact Or.inl ⟨u2, hmem, rfl, hact⟩
                  | some user =>
                      simp only [hg, Except.ok.injEq, Prod.mk.injEq] at hv
                      rw [← hv.1] at hmem
                      obtain ⟨huser, huseremail⟩ := get_user_by_email_ok_some hg
                      unfold activate_user at hmem
                      simp only [List.mem_map] at hmem
                      obtain ⟨v, hvmem, hfv⟩ := hmem
                      cases hvi : v.id == user.id <;> rw [hvi] at hfv
                      · rw [if_neg Bool.false_ne_true] at hfv
                        rw [← hfv] at hact
                        exact Or.inl ⟨v, hvmem, by rw [← hfv], hact⟩
                      · rw [if_pos rfl] at hfv
                        have hveq : v = user :=
                          List.inj_on_of_nodup_map hnodup hvmem huser
                            (by simpa using hvi)
                        have hu2email : u2.email = email := by
                          rw [← hfv, hveq]
                          exact huseremail
                        exact Or.inr ⟨w, key, now, rfl, by rw [hu2email]; exact hd,
                          user, huser, by rw [hu2email]; exact huseremail⟩

/-- C6 witness: instantiating the invariant on a login operation over a
store with one already-active user. -/
theorem is_active_only_via_verification_witness :
    (∃ u, u ∈ [(⟨1, "ann", "ann@x", "h", true, none, 1⟩ : User)] ∧
        u.id = 1 ∧ u.is_active = true) ∨
    (∃ w k n, AuthOp.opLogin "ann@x" "pw" 0 "k" = AuthOp.opVerifyEmail w k n ∧
      decode_verification_token w k n = some "ann@x" ∧
      ∃ u, u ∈ [(⟨1, "ann", "ann@x", "h", true, none, 1⟩ : User)] ∧
        u.email = "ann@x") :=
  is_active_only_via_verification.2
    ⟨[⟨1, "ann", "ann@x", "h", true, none, 1⟩], [⟨1, "user"⟩], 2⟩
    (.opLogin "ann@x" "pw" 0 "k") (by simp)
    ⟨1, "ann", "ann@x", "h", true, none, 1⟩ (by simp [applyAuthOp]) rfl

/-- C10: POST /auth/token never consults `is_active`: it answers 401 exactly
when no user carries the given email or the password does not verify against
the stored hash; any user with matching email and verifying password — in
particular a registered but never-verified, inactive one — receives the
access and refresh tokens.  The store is assumed to hold at most one user
per email; the final conjunct states the is_active-independence literally:
rewriting every user's `is_active` arbitrarily leaves the response
unchanged. -/
theorem login_ignores_is_active (st : AuthState) (username password : String)
    (now : Int) (key : String)
    (hemail : (st.users.filter (fun u => u.email == username)).length ≤ 1) :
    (login_for_token st username password now key = .ok (401, none) ↔
      ¬ ∃ u, u ∈ st.users ∧ u.email = username ∧
        verify_password password u.hashed_password = true) ∧
    (∀ u, u ∈ st.users → u.email = username →
      verify_password password u.hashed_password = true →
      login_for_token st username password now key =
        .ok (201, some (create_access_token (some u.email) none now key,
          create_refresh_token (some u.email) none now key))) ∧
    (∀ g : User → Bool,
      login_for_token
        { st with users := st.users.map (fun u => { u with is_active := g u }) }
        username password now key
      = login_for_token st username password now key) := by
  have hfmap : ∀ g : User → Bool,
      (st.users.map (fun u => { u with is_active := g u })).filter
          (fun u => u.email == username)
        = (st.users.filter (fun u => u.email == username)).map
            (fun u => { u with is_active := g u }) := by
    intro g
    rw [List.filter_map]
    rfl
  refine ⟨?_, ?_, ?_⟩
  · cases hfil : st.users.filter (fun u => u.email == username) with
    | nil =>
        have hres : login_for_token st username password now key
            = .ok (401, none) := by
          unfold login_for_token get_user_by_email
          rw [hfil]
          rfl
        constructor
        · rintro - ⟨u, hu, hue, hver⟩
          have hin : u ∈ st.users.filter (fun v => v.email == username) :=
            List.mem_filter.mpr ⟨hu, by simpa using hue⟩
          rw [hfil] at hin
          simp at hin
        · intro h
          exact hres
    | cons a t =>
        cases t with
        | nil =>
            have hafil : a ∈ st.users.filter (fun v => v.email == username) := by
              rw [hfil]; exact List.mem_singleton.mpr rfl
            have ha := List.mem_filter.mp hafil
            cases hver : verify_password password a.hashed_password with
            | false =>
                have hres : login_for_token st username password now key
                    = .ok (401, none) := by
                  unfold login_for_token get_user_by_email
                  rw [hfil]
                  simp [one_or_none, hver]
                constructor
                · rintro - ⟨u, hu, hue, huv⟩
                  have hin : u ∈ st.users.filter (fun v => v.email == username) :=
                    List.mem_filter.mpr ⟨hu, by simpa using hue⟩
                  rw [hfil] at hin
                  rw [List.mem_singleton.mp hin] at huv
                  rw [hver] at huv
                  exact Bool.false_ne_true huv
                · intro h
                  exact hres
            | true =>
                have hres : login_for_token st username password now key
                    = .ok (201, some (create_access_token (some a.email) none now key,
                        create_refresh_token (some a.email) none now key)) := by
                  unfold login_for_token get_user_by_email
                  rw [hfil]
                  simp [one_or_none, hver]
                constructor
                · intro h
                  rw [hres] at h
                  simp at h
                · intro h
                  exact absurd ⟨a, ha.1, by simpa using ha.2, hver⟩ h
        | cons b t2 => rw [hfil] at hemail; simp at hemail
  · intro u hu hue hver
    have hufil : u ∈ st.users.filter (fun v => v.email == username) :=
      List.mem_filter.mpr ⟨hu, by simpa using hue⟩
    unfold login_for_token get_user_by_email
    cases hfil : st.users.filter (fun v => v.email == username) with
    | nil => rw [hfil] at hufil; simp at hufil
    | cons a t =>
        cases t with
        | nil =>
            rw [hfil] at hufil
            rw [← List.mem_singleton.mp hufil]
            simp only [one_or_none, if_pos hver]
        | cons b t2 => rw [hfil] at hemail; simp at hemail
  · intro g
    unfold login_for_token get_user_by_email
    rw [hfmap g]
    cases hfil : st.users.filter (fun u => u.email == username) with
    | nil => rfl
    | cons a t =>
        cases t with
        | nil => rfl
        | cons b t2 => rfl

/-- Demo inactive user with a verifying password. -/
def inactiveUser : User :=
  ⟨1, "ann", "ann@x", get_password_hash "pw", false, none, 1⟩

/-- C10 witness: an inactive user with correct credentials receives 201 with
both tokens. -/
theorem login_ignores_is_active_witness :
    login_for_token ⟨[inactiveUser], [⟨1, "user"⟩], 2⟩ "ann@x" "pw" 0 "k" =
      .ok (201, some (create_access_token (some "ann@x") none 0 "k",
        create_refresh_token (some "ann@x") none 0 "k")) :=
  (login_ignores_is_active ⟨[inactiveUser], [⟨1, "user"⟩], 2⟩ "ann@x" "pw" 0 "k"
    (by decide)).2.1 inactiveUser (by decide) (by decide) (by decide)
